import Mathlib

/-!
Verification of the gesture-mapping and orchestration-loop logic of the
AI Gesture Controller application (src/src/App.tsx).

The owned logic of the repository is a per-frame tick: poll the video
frame, run hand detection when the frame timestamp changed, map the
detected keypoints to rotation / zoom targets, smooth the scene state
toward them, or apply an idle auto-rotation when no hand is present.

JavaScript numbers are modelled as real numbers.  A JavaScript runtime
exception (accessing a property of `undefined`) is modelled by `Option`:
a tick that throws returns `none` and performs no state mutation, since
the throwing access happens before any assignment in the source.
-/

set_option autoImplicit false

namespace GestureApp

/-- Landmark record, from the `Landmark` interface in App.tsx:
normalized coordinates `x`, `y`, `z` plus an optional visibility. -/
structure Landmark where
  x : ℝ
  y : ℝ
  z : ℝ
  visibility : Option ℝ

/-- `THREE.MathUtils.lerp(x, y, t) = (1 - t) * x + t * y`. -/
noncomputable def lerp (x y t : ℝ) : ℝ := (1 - t) * x + t * y

/-- `THREE.MathUtils.mapLinear(x, a1, a2, b1, b2) = (x - a1) * (b2 - b1) / (a2 - a1) + b1`. -/
noncomputable def mapLinear (x a1 a2 b1 b2 : ℝ) : ℝ :=
  (x - a1) * (b2 - b1) / (a2 - a1) + b1

/-- `THREE.MathUtils.clamp(value, min, max) = Math.max(min, Math.min(max, value))`. -/
noncomputable def clamp (value lo hi : ℝ) : ℝ := max lo (min hi value)

/-- Mutable scene state touched by the tick: the shape mesh rotation,
the wireframe mesh rotation, and the camera position z (zoom distance).
The shape's rotation.z is never written by the gesture code but is
carried because `wireframe.rotation.copy(shape.rotation)` copies it. -/
structure SceneState where
  rotX : ℝ
  rotY : ℝ
  rotZ : ℝ
  wireRotX : ℝ
  wireRotY : ℝ
  wireRotZ : ℝ
  camZ : ℝ

/-- Initial scene state from `initThreeScene`: meshes are created with
default (zero) rotation and `camera.position.z = 5` (App.tsx line 120). -/
noncomputable def initialState : SceneState :=
  { rotX := 0, rotY := 0, rotZ := 0,
    wireRotX := 0, wireRotY := 0, wireRotZ := 0, camZ := 5 }

/-- `const rotationY = (indexFingerTip.x - 0.5) * Math.PI * 2.5` (App.tsx line 261). -/
noncomputable def rotationTargetY (tip : Landmark) : ℝ :=
  (tip.x - 0.5) * Real.pi * 2.5

/-- `const rotationX = (indexFingerTip.y - 0.5) * Math.PI * 2.5` (App.tsx line 262). -/
noncomputable def rotationTargetX (tip : Landmark) : ℝ :=
  (tip.y - 0.5) * Real.pi * 2.5

/-- Pinch distance (App.tsx lines 270-272):
`dx = thumbTip.x - indexFingerTip.x`, `dy = thumbTip.y - indexFingerTip.y`,
`distance = Math.sqrt(dx*dx + dy*dy)`.  The z coordinates are not read. -/
noncomputable def pinchDistance (thumbTip indexFingerTip : Landmark) : ℝ :=
  let dx := thumbTip.x - indexFingerTip.x
  let dy := thumbTip.y - indexFingerTip.y
  Real.sqrt (dx * dx + dy * dy)

/-- Zoom target from a pinch distance (App.tsx lines 274-275):
`zoomLevel = mapLinear(distance, 0.05, 0.3, 8, 3)` then
`clampedZoom = clamp(zoomLevel, 3, 8)`. -/
noncomputable def zoomTarget (distance : ℝ) : ℝ :=
  let zoomLevel := mapLinear distance 0.05 0.3 8 3
  clamp zoomLevel 3 8

/-- `update3DObject(landmarks)` (App.tsx lines 255-277).  The source reads
`landmarks[8].x` with no length guard; when index 8 is absent the access
of `.x` on `undefined` throws, before any state assignment, which we model
as `none`.  Index 4 is always present when index 8 is (4 < 8), so the
double match has a single reachable failure mode.  On success the shape
rotation is smoothed toward the fingertip targets with factor 0.1, the
wireframe rotation is copied from the shape rotation (all axes), and the
camera z is smoothed toward the clamped zoom target with factor 0.1. -/
noncomputable def update3DObject (landmarks : List Landmark) (s : SceneState) :
    Option SceneState :=
  match landmarks.get? 8, landmarks.get? 4 with
  | some indexFingerTip, some thumbTip =>
      let newRotY := lerp s.rotY (rotationTargetY indexFingerTip) 0.1
      let newRotX := lerp s.rotX (rotationTargetX indexFingerTip) 0.1
      let distance := pinchDistance thumbTip indexFingerTip
      let clampedZoom := zoomTarget distance
      some { rotX := newRotX, rotY := newRotY, rotZ := s.rotZ,
             wireRotX := newRotX, wireRotY := newRotY, wireRotZ := s.rotZ,
             camZ := lerp s.camZ clampedZoom 0.1 }
  | _, _ => none

/-- Idle branch of the tick (App.tsx lines 242-244), taken when no hand
result is available: `shape.rotation.y += 0.002`, `shape.rotation.x += 0.001`,
`wireframe.rotation.copy(shape.rotation)`.  The camera is not touched. -/
noncomputable def idleStep (s : SceneState) : SceneState :=
  { s with rotY := s.rotY + 0.002, rotX := s.rotX + 0.001,
           wireRotX := s.rotX + 0.001, wireRotY := s.rotY + 0.002,
           wireRotZ := s.rotZ }

/-- Inputs of one tick of `predictWebcam`: whether `video.currentTime`
differs from `lastVideoTime`, and the hands the detector would return
(each hand a keypoint list); `detectForVideo` only runs when the time
changed. -/
structure TickInput where
  videoTimeChanged : Bool
  detectedHands : List (List Landmark)

/-- One tick of `predictWebcam` (App.tsx lines 200-250), restricted to the
modelled state.  If the video time changed, detection runs and, when at
least one hand is present, `update3DObject` is applied to `landmarks[0]`
(a throw there aborts the tick with no further steps).  The idle branch
(`!results?.landmarks || results.landmarks.length === 0`) fires both when
detection returned zero hands and when detection was skipped, because in
the latter case `results` stays `undefined`. -/
noncomputable def predictTick (inp : TickInput) (s : SceneState) :
    Option SceneState :=
  let results : Option (List (List Landmark)) :=
    if inp.videoTimeChanged then some inp.detectedHands else none
  let afterHand : Option SceneState :=
    match results with
    | some (landmarks :: _) => update3DObject landmarks s
    | some [] => some s
    | none => some s
  match afterHand with
  | none => none
  | some s1 =>
      match results with
      | some (_ :: _) => some s1
      | _ => some (idleStep s1)

/-- n repetitions of the smoothing step applied every tick to each output
scalar: `current = lerp(current, target, 0.1)` (App.tsx lines 263-264 and
276), holding the target constant. -/
noncomputable def smoothIter (target : ℝ) : ℕ → ℝ → ℝ
  | 0, current => current
  | n + 1, current => lerp (smoothIter target n current) target 0.1

/-! ### Helper lemmas -/

theorem le_clamp (value lo hi : ℝ) : lo ≤ clamp value lo hi :=
  le_max_left _ _

theorem clamp_le (value lo hi : ℝ) (h : lo ≤ hi) : clamp value lo hi ≤ hi :=
  max_le h (min_le_left _ _)

theorem mapLinear_zoom_eq (d : ℝ) :
    mapLinear d 0.05 0.3 8 3 = 8 - 20 * (d - 0.05) := by
  unfold mapLinear
  norm_num
  ring

theorem zoomTarget_def (d : ℝ) :
    zoomTarget d = max 3 (min 8 (8 - 20 * (d - 0.05))) := by
  show clamp (mapLinear d 0.05 0.3 8 3) 3 8 = _
  rw [mapLinear_zoom_eq]
  rfl

theorem zoomTarget_eq_of_mem (d : ℝ) (h1 : 0.05 ≤ d) (h2 : d ≤ 0.3) :
    zoomTarget d = 8 - 20 * (d - 0.05) := by
  rw [zoomTarget_def, min_eq_right (by nlinarith), max_eq_right (by nlinarith)]

theorem zoomTarget_mem (d : ℝ) : 3 ≤ zoomTarget d ∧ zoomTarget d ≤ 8 :=
  ⟨le_clamp _ _ _, clamp_le _ _ _ (by norm_num)⟩

theorem lerp_mem (a v : ℝ) (ha3 : 3 ≤ a) (ha8 : a ≤ 8) (hv3 : 3 ≤ v) (hv8 : v ≤ 8) :
    3 ≤ lerp a v 0.1 ∧ lerp a v 0.1 ≤ 8 := by
  unfold lerp
  constructor <;> nlinarith

theorem predictTick_stale (hands : List (List Landmark)) (s : SceneState) :
    predictTick ⟨false, hands⟩ s = some (idleStep s) := rfl

theorem predictTick_noHand (s : SceneState) :
    predictTick ⟨true, []⟩ s = some (idleStep s) := rfl

theorem predictTick_hand_none (lms : List Landmark) (rest : List (List Landmark))
    (s : SceneState) (h : update3DObject lms s = none) :
    predictTick ⟨true, lms :: rest⟩ s = none := by
  unfold predictTick
  simp [h]

theorem predictTick_hand_some (lms : List Landmark) (rest : List (List Landmark))
    (s s1 : SceneState) (h : update3DObject lms s = some s1) :
    predictTick ⟨true, lms :: rest⟩ s = some s1 := by
  unfold predictTick
  simp [h]

theorem update3DObject_none_of_short (lms : List Landmark) (s : SceneState)
    (h : lms.length < 9) : update3DObject lms s = none := by
  have h8 : lms.get? 8 = none := List.get?_eq_none.mpr (by omega)
  unfold update3DObject
  rw [h8]

theorem update3DObject_isSome_of_full (lms : List Landmark) (s : SceneState)
    (h : 9 ≤ lms.length) : (update3DObject lms s).isSome = true := by
  have h8 : 8 < lms.length := by omega
  have h4 : 4 < lms.length := by omega
  unfold update3DObject
  rw [List.get?_eq_get h8, List.get?_eq_get h4]
  rfl

theorem update3DObject_some_spec (lms : List Landmark) (s s1 : SceneState)
    (h : update3DObject lms s = some s1) :
    (∃ v : ℝ, 3 ≤ v ∧ v ≤ 8 ∧ s1.camZ = lerp s.camZ v 0.1) ∧
    s1.wireRotX = s1.rotX ∧ s1.wireRotY = s1.rotY ∧ s1.wireRotZ = s1.rotZ := by
  unfold update3DObject at h
  cases h8 : lms.get? 8 with
  | none =>
      rw [h8] at h
      exact absurd h (by simp)
  | some tip =>
      cases h4 : lms.get? 4 with
      | none =>
          rw [h8, h4] at h
          exact absurd h (by simp)
      | some thumb =>
          rw [h8, h4] at h
          cases Option.some.inj h
          exact ⟨⟨zoomTarget (pinchDistance thumb tip),
                  (zoomTarget_mem _).1, (zoomTarget_mem _).2, rfl⟩, rfl, rfl, rfl⟩

/-! ### Claims -/

/-- Claim C2: the clamped zoom target equals 8 for pinch distance at most
0.05, equals 3 for distance at least 0.3, is the linear interpolation
between the endpoints (0.05, 8) and (0.3, 3) in between — with the
inverted endpoints preserved: smaller distance, larger value — is
strictly decreasing on the open interval, and always lies in [3, 8]. -/
theorem C2_zoom_mapping (d : ℝ) :
    (d ≤ 0.05 → zoomTarget d = 8) ∧
    (0.3 ≤ d → zoomTarget d = 3) ∧
    (0.05 < d → d < 0.3 → zoomTarget d = 8 - 20 * (d - 0.05)) ∧
    (∀ d2 : ℝ, 0.05 < d → d < d2 → d2 < 0.3 → zoomTarget d2 < zoomTarget d) ∧
    3 ≤ zoomTarget d ∧ zoomTarget d ≤ 8 := by
  refine ⟨?_, ?_, ?_, ?_, zoomTarget_mem d⟩
  · intro h
    rw [zoomTarget_def, min_eq_left (by nlinarith), max_eq_right (by norm_num)]
  · intro h
    rw [zoomTarget_def, min_eq_right (by nlinarith), max_eq_left (by nlinarith)]
  · intro h1 h2
    exact zoomTarget_eq_of_mem d h1.le h2.le
  · intro d2 h1 h12 h2
    rw [zoomTarget_eq_of_mem d h1.le (by linarith),
        zoomTarget_eq_of_mem d2 (by linarith) h2.le]
    linarith

/-- Closed witness for C2 at the concrete distances 0, 0.1 and 1. -/
theorem C2_zoom_mapping_witness :
    zoomTarget 0 = 8 ∧ zoomTarget 1 = 3 ∧ zoomTarget 0.1 = 8 - 20 * (0.1 - 0.05) :=
  ⟨(C2_zoom_mapping 0).1 (by norm_num),
   (C2_zoom_mapping 1).2.1 (by norm_num),
   (C2_zoom_mapping 0.1).2.2.1 (by norm_num) (by norm_num)⟩

/-- Claim C3: for fingertip coordinates in the unit square, each rotation
target lies within [−2.5·π/2, 2.5·π/2], each target is strictly increasing
in its own coordinate, fingertip (0.5, 0.5) yields targets (0, 0), and
fingertip x = 1.0 yields a y-rotation target of 2.5·π/2. -/
theorem C3_rotation_targets (tip : Landmark)
    (hx0 : 0 ≤ tip.x) (hx1 : tip.x ≤ 1) (hy0 : 0 ≤ tip.y) (hy1 : tip.y ≤ 1) :
    (-(2.5 * (Real.pi / 2)) ≤ rotationTargetY tip ∧
      rotationTargetY tip ≤ 2.5 * (Real.pi / 2)) ∧
    (-(2.5 * (Real.pi / 2)) ≤ rotationTargetX tip ∧
      rotationTargetX tip ≤ 2.5 * (Real.pi / 2)) ∧
    (∀ tip2 : Landmark, tip.x < tip2.x → rotationTargetY tip < rotationTargetY tip2) ∧
    (∀ tip2 : Landmark, tip.y < tip2.y → rotationTargetX tip < rotationTargetX tip2) ∧
    (tip.x = 0.5 → rotationTargetY tip = 0) ∧
    (tip.y = 0.5 → rotationTargetX tip = 0) ∧
    (tip.x = 1 → rotationTargetY tip = 2.5 * (Real.pi / 2)) := by
  have hpi := Real.pi_pos
  unfold rotationTargetY rotationTargetX
  refine ⟨⟨by nlinarith, by nlinarith⟩, ⟨by nlinarith, by nlinarith⟩,
    ?_, ?_, ?_, ?_, ?_⟩
  · intro tip2 h
    have := sub_lt_sub_right h 0.5
    nlinarith
  · intro tip2 h
    have := sub_lt_sub_right h 0.5
    nlinarith
  · intro h
    rw [h]
    ring
  · intro h
    rw [h]
    ring
  · intro h
    rw [h]
    ring

/-- Closed witness for C3: fingertip (1, 0.5) is inside the unit square,
its y-rotation target is 2.5·π/2 and its x-rotation target is 0. -/
theorem C3_rotation_targets_witness :
    rotationTargetY ⟨1, 0.5, 0, none⟩ = 2.5 * (Real.pi / 2) ∧
    rotationTargetX ⟨1, 0.5, 0, none⟩ = 0 := by
  have h := C3_rotation_targets ⟨1, 0.5, 0, none⟩
    (by norm_num) (by norm_num) (by norm_num) (by norm_num)
  exact ⟨h.2.2.2.2.2.2 rfl, h.2.2.2.2.2.1 rfl⟩

/-- Claim C6: smoothing is idempotent — when the target equals the current
value, one interpolation step with factor 0.1 leaves the value unchanged;
this applies to each of the three smoothed scalars, all of which step via
`lerp current target 0.1`. -/
theorem C6_smoothing_idempotent (c : ℝ) : lerp c c 0.1 = c := by
  unfold lerp
  ring

/-- Claim C7: after n smoothing steps toward a constant target, the
distance to the target is exactly (1 − 0.1)^n = 0.9^n times the initial
distance, and consequently for every positive ε some number of steps
brings the state within ε of the target. -/
theorem C7_smoothing_convergence (c0 target : ℝ) (n : ℕ) :
    |smoothIter target n c0 - target| = 0.9 ^ n * |c0 - target| ∧
    (∀ ε : ℝ, 0 < ε → ∃ m : ℕ, |smoothIter target m c0 - target| < ε) := by
  have key : ∀ k : ℕ, |smoothIter target k c0 - target| = 0.9 ^ k * |c0 - target| := by
    intro k
    induction k with
    | zero => simp [smoothIter]
    | succ k ih =>
        have step : smoothIter target (k + 1) c0 - target
            = 0.9 * (smoothIter target k c0 - target) := by
          show lerp (smoothIter target k c0) target 0.1 - target = _
          unfold lerp
          ring
        rw [step, abs_mul, ih, abs_of_pos (by norm_num : (0:ℝ) < 0.9)]
        ring
  refine ⟨key n, ?_⟩
  intro ε hε
  rcases eq_or_ne (|c0 - target|) 0 with h0 | h0
  · exact ⟨0, by rw [key 0, h0]; simpa using hε⟩
  · have hD : 0 < |c0 - target| := lt_of_le_of_ne (abs_nonneg _) (Ne.symm h0)
    obtain ⟨m, hm⟩ := exists_pow_lt_of_lt_one
      (div_pos hε hD) (by norm_num : (0.9:ℝ) < 1)
    refine ⟨m, ?_⟩
    rw [key m]
    calc 0.9 ^ m * |c0 - target| < ε / |c0 - target| * |c0 - target| := by
          exact mul_lt_mul_of_pos_right hm hD
      _ = ε := div_mul_cancel₀ ε (ne_of_gt hD)

/-- Closed witness for C7 at initial value 0, target 1, two steps, ε = 1/2. -/
theorem C7_smoothing_convergence_witness :
    |smoothIter 1 2 0 - 1| = 0.9 ^ 2 * |(0:ℝ) - 1| ∧
    ∃ m : ℕ, |smoothIter 1 m 0 - 1| < 1/2 :=
  ⟨(C7_smoothing_convergence 0 1 2).1,
   (C7_smoothing_convergence 0 1 2).2 (1/2) (by norm_num)⟩

/-- Claim C1, counterexample: a tick whose detection result contains a
hand with a single keypoint (fewer than 21, and fewer than 9, so index 8
is absent) is NOT handled like a no-hand tick: the gesture-mapping code
throws (modelled `none`, from reading `.x` of `landmarks[8]`, which is
`undefined`), while the genuine no-hand tick completes with a state. -/
theorem C1_counterexample :
    predictTick ⟨true, [[⟨0.5, 0.5, 0, none⟩]]⟩ initialState = none ∧
    predictTick ⟨true, []⟩ initialState ≠ none := by
  refine ⟨?_, ?_⟩
  · exact predictTick_hand_none _ [] initialState
      (update3DObject_none_of_short _ _ (by norm_num))
  · intro h
    exact Option.noConfusion h

/-- Claim C1 as amended: a hand whose keypoint array has fewer than 9
entries makes `update3DObject` fault (the tick aborts with an exception)
instead of falling back to the idle policy; a hand with at least 9 entries
(in particular 9 to 20, still fewer than 21) is processed as an ordinary
gesture tick without fault.  Only a detection result with zero hands is
handled by the idle policy. -/
theorem C1_amended_short_keypoints (s : SceneState) (lms : List Landmark) :
    (lms.length < 9 →
      update3DObject lms s = none ∧ predictTick ⟨true, [lms]⟩ s = none) ∧
    (9 ≤ lms.length →
      predictTick ⟨true, [lms]⟩ s = update3DObject lms s ∧
      (update3DObject lms s).isSome = true) := by
  constructor
  · intro h
    have hu := update3DObject_none_of_short lms s h
    exact ⟨hu, predictTick_hand_none lms [] s hu⟩
  · intro h
    have hs := update3DObject_isSome_of_full lms s h
    cases hu : update3DObject lms s with
    | none => rw [hu] at hs; exact absurd hs (by simp)
    | some s1 =>
        exact ⟨predictTick_hand_some lms [] s s1 hu, rfl⟩

/-- Closed witness for the amended C1: the empty keypoint array (0 < 9
entries) makes both the gesture mapper and the whole tick fault. -/
theorem C1_amended_short_keypoints_witness :
    update3DObject [] initialState = none ∧
    predictTick ⟨true, [[]]⟩ initialState = none :=
  (C1_amended_short_keypoints initialState []).1 (by norm_num)

/-- Claim C4, counterexample: a tick whose frame timestamp equals the
previously processed one does NOT retain the rotation state.  Detection is
skipped, so `results` stays undefined and the no-hand idle branch runs:
starting from the initial state the tick changes rotation x by +0.001. -/
theorem C4_counterexample :
    predictTick ⟨false, []⟩ initialState ≠ some initialState := by
  intro h
  have h1 : idleStep initialState = initialState := Option.some.inj h
  have h2 : (0:ℝ) + 0.001 = 0 := congrArg SceneState.rotX h1
  norm_num at h2

/-- Claim C4 as amended: on a tick with an unchanged frame timestamp,
pose estimation is skipped (the outcome does not depend on what the
detector would have returned) and the zoom state is retained, but the
rotation axes receive the idle auto-rotation increments (+0.001 on x,
+0.002 on y) exactly as in a no-hand tick. -/
theorem C4_amended_stale_frame (hands : List (List Landmark)) (s : SceneState) :
    predictTick ⟨false, hands⟩ s = some (idleStep s) ∧
    (idleStep s).camZ = s.camZ ∧
    (idleStep s).rotX = s.rotX + 0.001 ∧
    (idleStep s).rotY = s.rotY + 0.002 :=
  ⟨rfl, rfl, rfl, rfl⟩

/-- Claim C5: starting from the initial camera distance 5, the zoom
distance lies in [3, 8] initially and after every successful tick
(hand-present, no-hand and skipped-estimation alike; a faulting tick
mutates nothing), and whenever the hand branch writes the camera it
interpolates toward a value v with 3 ≤ v ≤ 8 — never an unclamped mapped
value.  In this real-number model every state component is a real number,
hence finite. -/
theorem C5_zoom_invariant :
    (3 ≤ initialState.camZ ∧ initialState.camZ ≤ 8) ∧
    (∀ inp : TickInput, ∀ s s' : SceneState, predictTick inp s = some s' →
      3 ≤ s.camZ → s.camZ ≤ 8 → 3 ≤ s'.camZ ∧ s'.camZ ≤ 8) ∧
    (∀ lms : List Landmark, ∀ s s' : SceneState, update3DObject lms s = some s' →
      ∃ v : ℝ, 3 ≤ v ∧ v ≤ 8 ∧ s'.camZ = lerp s.camZ v 0.1) := by
  refine ⟨⟨by norm_num [initialState], by norm_num [initialState]⟩, ?_, ?_⟩
  · rintro ⟨vtc, hands⟩ s s' heq h3 h8
    cases vtc with
    | false =>
        rw [predictTick_stale] at heq
        cases Option.some.inj heq
        exact ⟨h3, h8⟩
    | true =>
        cases hands with
        | nil =>
            rw [predictTick_noHand] at heq
            cases Option.some.inj heq
            exact ⟨h3, h8⟩
        | cons lms rest =>
            cases hu : update3DObject lms s with
            | none =>
                rw [predictTick_hand_none lms rest s hu] at heq
                exact absurd heq (by simp)
            | some s1 =>
                rw [predictTick_hand_some lms rest s s1 hu] at heq
                cases Option.some.inj heq
                obtain ⟨⟨v, hv3, hv8, hcam⟩, -⟩ := update3DObject_some_spec lms s _ hu
                rw [hcam]
                exact lerp_mem s.camZ v h3 h8 hv3 hv8
  · intro lms s s' h
    exact (update3DObject_some_spec lms s s' h).1

/-- Closed witness for C5: a no-hand tick from the initial state keeps the
camera distance inside [3, 8]. -/
theorem C5_zoom_invariant_witness :
    3 ≤ (idleStep initialState).camZ ∧ (idleStep initialState).camZ ≤ 8 :=
  C5_zoom_invariant.2.1 ⟨true, []⟩ initialState (idleStep initialState) rfl
    (by norm_num [initialState]) (by norm_num [initialState])

/-- Claim C8: a no-hand tick increments rotation x by the fixed constant
0.001 and rotation y by the fixed constant 0.002 (both positive), performs
no interpolation toward a gesture target (the result is exactly the idle
step, which contains no lerp), and leaves the camera zoom unchanged. -/
theorem C8_no_hand_tick (s : SceneState) :
    predictTick ⟨true, []⟩ s = some (idleStep s) ∧
    (idleStep s).rotX = s.rotX + 0.001 ∧
    (idleStep s).rotY = s.rotY + 0.002 ∧
    (idleStep s).camZ = s.camZ ∧
    ((0:ℝ) < 0.001 ∧ (0:ℝ) < 0.002) :=
  ⟨rfl, rfl, rfl, rfl, by norm_num⟩

/-- Claim C9: the pinch distance reads only the x and y coordinates of the
thumb tip and index fingertip; two keypoint pairs agreeing on x and y but
differing arbitrarily in z (or visibility) give the same distance and the
same zoom target. -/
theorem C9_pinch_ignores_z (t1 i1 t2 i2 : Landmark)
    (htx : t1.x = t2.x) (hty : t1.y = t2.y)
    (hix : i1.x = i2.x) (hiy : i1.y = i2.y) :
    pinchDistance t1 i1 = pinchDistance t2 i2 ∧
    zoomTarget (pinchDistance t1 i1) = zoomTarget (pinchDistance t2 i2) := by
  have hd : pinchDistance t1 i1 = pinchDistance t2 i2 := by
    unfold pinchDistance
    rw [htx, hty, hix, hiy]
  exact ⟨hd, by rw [hd]⟩

/-- Closed witness for C9: concrete keypoint pairs equal on x, y but with
different z (and visibility) yield equal distance and zoom target. -/
theorem C9_pinch_ignores_z_witness :
    pinchDistance ⟨0.1, 0.2, 0, none⟩ ⟨0.3, 0.7, 0.5, none⟩ =
      pinchDistance ⟨0.1, 0.2, 0.9, some 1⟩ ⟨0.3, 0.7, -2, none⟩ ∧
    zoomTarget (pinchDistance ⟨0.1, 0.2, 0, none⟩ ⟨0.3, 0.7, 0.5, none⟩) =
      zoomTarget (pinchDistance ⟨0.1, 0.2, 0.9, some 1⟩ ⟨0.3, 0.7, -2, none⟩) :=
  C9_pinch_ignores_z _ _ _ _ rfl rfl rfl rfl

/-- Claim C10: every tick that changes the shape rotation (hand-present
smoothing and no-hand idle alike) ends with the wireframe rotation equal
to the shape rotation on all three axes, because both branches finish with
`wireframe.rotation.copy(shape.rotation)`. -/
theorem C10_wireframe_follows (inp : TickInput) (s s' : SceneState)
    (h : predictTick inp s = some s')
    (hchange : s'.rotX ≠ s.rotX ∨ s'.rotY ≠ s.rotY ∨ s'.rotZ ≠ s.rotZ) :
    s'.wireRotX = s'.rotX ∧ s'.wireRotY = s'.rotY ∧ s'.wireRotZ = s'.rotZ := by
  rcases inp with ⟨vtc, hands⟩
  cases vtc with
  | false =>
      rw [predictTick_stale] at h
      cases Option.some.inj h
      exact ⟨rfl, rfl, rfl⟩
  | true =>
      cases hands with
      | nil =>
          rw [predictTick_noHand] at h
          cases Option.some.inj h
          exact ⟨rfl, rfl, rfl⟩
      | cons lms rest =>
          cases hu : update3DObject lms s with
          | none =>
              rw [predictTick_hand_none lms rest s hu] at h
              exact absurd h (by simp)
          | some s1 =>
              rw [predictTick_hand_some lms rest s s1 hu] at h
              cases Option.some.inj h
              exact (update3DObject_some_spec lms s _ hu).2

/-- Closed witness for C10: the idle tick from the initial state changes
rotation x (by +0.001) and ends with wireframe rotation equal to shape
rotation on every axis. -/
theorem C10_wireframe_follows_witness :
    (idleStep initialState).wireRotX = (idleStep initialState).rotX ∧
    (idleStep initialState).wireRotY = (idleStep initialState).rotY ∧
    (idleStep initialState).wireRotZ = (idleStep initialState).rotZ :=
  C10_wireframe_follows ⟨false, []⟩ initialState (idleStep initialState) rfl
    (Or.inl (by norm_num [idleStep, initialState]))

end GestureApp
